import Mathlib

/-!
Verification of the Surat event assistant reply pipeline
(`src/api/graph.py`, `src/api/search.py`, `src/api/llm.py`).

The Python code is shallowly embedded: pure helpers become Lean functions on
`String` / `List Char`, the LangGraph state dict becomes a structure of
`Option` fields, node outputs are partial patches merged by `applyPatch`, and
the external services (search providers, chat-completion backend) are
parameters collected in an `Env` record.
-/

set_option maxRecDepth 4000

/-- The six whitespace characters removed by Python's `str.strip()`
(restricted to ASCII, which covers every string produced by this program). -/
def isPySpace (c : Char) : Bool :=
  c = ' ' || c = '\t' || c = '\n' || c = '\r' || c = '\x0b' || c = '\x0c'

/-- `str.strip()` on the character list: drop whitespace from both ends. -/
def stripList (l : List Char) : List Char :=
  List.rdropWhile isPySpace (l.dropWhile isPySpace)

/-- Python `s.strip()`. -/
def pyStrip (s : String) : String :=
  String.mk (stripList s.data)

/-- Python `s.lower()` (ASCII case folding; all keywords in the program are
ASCII). -/
def pyLower (s : String) : String :=
  String.mk (s.data.map Char.toLower)

/-- Contiguous-substring test on character lists: Python's `needle in hay`. -/
def containsSub (hay needle : List Char) : Bool :=
  if needle.isPrefixOf hay then true
  else
    match hay with
    | [] => false
    | _ :: t => containsSub t needle

/-- Python `needle in hay` for strings. -/
def strContains (hay needle : String) : Bool :=
  containsSub hay.data needle.data

/-- `SourceItem` from `src/api/schemas.py`: a cited link. -/
structure SourceItem where
  title : String
  url : String
deriving DecidableEq, Repr

/-- The dedup key `s.url.strip().lower()` from `_dedupe_sources`. -/
def normalizeUrl (u : String) : String :=
  pyLower (pyStrip u)

/-- Loop of `_dedupe_sources` (`src/api/search.py` lines 12-23): `n` counts the
entries already collected; the Python loop appends and then breaks as soon as
`len(deduped) >= limit`. -/
def dedupeAux (limit : Nat) : List SourceItem → List String → Nat → List SourceItem
  | [], _, _ => []
  | s :: rest, seen, n =>
    let key := normalizeUrl s.url
    if key = "" ∨ key ∈ seen then dedupeAux limit rest seen n
    else if limit ≤ n + 1 then [s]
    else s :: dedupeAux limit rest (key :: seen) (n + 1)

/-- `_dedupe_sources(sources, limit)` from `src/api/search.py`. -/
def dedupe_sources (sources : List SourceItem) (limit : Nat) : List SourceItem :=
  dedupeAux limit sources [] 0

/-- First occurrence of every nonempty normalized URL, in order, with no limit
applied: the specification-shaped companion of `dedupeAux`. -/
def firstOccsAux : List SourceItem → List String → List SourceItem
  | [], _ => []
  | s :: rest, seen =>
    let key := normalizeUrl s.url
    if key = "" ∨ key ∈ seen then firstOccsAux rest seen
    else s :: firstOccsAux rest (key :: seen)

/-- All first occurrences of nonempty normalized URLs, in input order. -/
def firstOccs (sources : List SourceItem) : List SourceItem :=
  firstOccsAux sources []

theorem firstOccsAux_sublist (l : List SourceItem) :
    ∀ seen, List.Sublist (firstOccsAux l seen) l := by
  induction l with
  | nil => intro seen; simp [firstOccsAux]
  | cons s rest ih =>
    intro seen
    simp only [firstOccsAux]
    split
    · exact (ih seen).cons s
    · exact (ih (normalizeUrl s.url :: seen)).cons₂ s

theorem firstOccsAux_keys (l : List SourceItem) :
    ∀ seen, (∀ s ∈ firstOccsAux l seen, normalizeUrl s.url ≠ "" ∧ normalizeUrl s.url ∉ seen)
      ∧ (List.map (fun s => normalizeUrl s.url) (firstOccsAux l seen)).Nodup := by
  induction l with
  | nil => intro seen; simp [firstOccsAux]
  | cons s rest ih =>
    intro seen
    simp only [firstOccsAux]
    split
    · exact ih seen
    · rename_i hcond
      push_neg at hcond
      constructor
      · intro s' hs'
        rcases List.mem_cons.mp hs' with h | h
        · exact h ▸ ⟨hcond.1, hcond.2⟩
        · have := ((ih (normalizeUrl s.url :: seen)).1 s' h)
          exact ⟨this.1, fun hmem => this.2 (List.mem_cons_of_mem _ hmem)⟩
      · rw [List.map_cons, List.nodup_cons]
        refine ⟨?_, (ih (normalizeUrl s.url :: seen)).2⟩
        intro hmem
        rcases List.mem_map.mp hmem with ⟨s', hs', hkey⟩
        exact ((ih (normalizeUrl s.url :: seen)).1 s' hs').2 (hkey ▸ List.mem_cons_self _ _)

theorem dedupeAux_eq_take (limit : Nat) (l : List SourceItem) :
    ∀ seen n, n < max limit 1 →
      dedupeAux limit l seen n = (firstOccsAux l seen).take (max limit 1 - n) := by
  induction l with
  | nil => intro seen n _; simp [dedupeAux, firstOccsAux]
  | cons s rest ih =>
    intro seen n hn
    simp only [dedupeAux, firstOccsAux]
    split
    · exact ih seen n hn
    · by_cases hlim : limit ≤ n + 1
      · have hk : max limit 1 = n + 1 := by omega
        rw [if_pos hlim, hk]
        simp
      · rw [if_neg hlim]
        have hk : max limit 1 = limit := by omega
        have htake : max limit 1 - n = (max limit 1 - (n + 1)) + 1 := by omega
        rw [htake, List.take_succ_cons, ih (normalizeUrl s.url :: seen) (n + 1) (by omega)]

theorem dedupe_sources_eq_take (sources : List SourceItem) (limit : Nat) :
    dedupe_sources sources limit = (firstOccs sources).take (max limit 1) := by
  have := dedupeAux_eq_take limit sources [] 0 (by omega)
  simpa [dedupe_sources, firstOccs] using this

/-- Claim C3 (amended): `_dedupe_sources` normalizes each URL by trimming and
case-folding, drops entries whose normalized URL is empty or already seen,
returns a subsequence of the input consisting of the first occurrence of each
URL, and its length is at most `max limit 1`; the stated bound `length ≤ limit`
holds for every limit `≥ 1` but fails at limit `0`, where one entry is still
returned because the Python loop checks the bound only after appending. -/
theorem dedupe_sources_spec (sources : List SourceItem) (limit : Nat) :
    dedupe_sources sources limit = (firstOccs sources).take (max limit 1)
    ∧ List.Sublist (dedupe_sources sources limit) sources
    ∧ (List.map (fun s => normalizeUrl s.url) (dedupe_sources sources limit)).Nodup
    ∧ (∀ s ∈ dedupe_sources sources limit, normalizeUrl s.url ≠ "")
    ∧ (dedupe_sources sources limit).length ≤ max limit 1
    ∧ (1 ≤ limit → (dedupe_sources sources limit).length ≤ limit) := by
  have heq := dedupe_sources_eq_take sources limit
  have hsub : List.Sublist (dedupe_sources sources limit) sources := by
    rw [heq]
    exact (List.take_sublist _ _).trans (firstOccsAux_sublist sources [])
  have hlen : (dedupe_sources sources limit).length ≤ max limit 1 := by
    rw [heq]
    exact (List.length_take_le _ _)
  refine ⟨heq, hsub, ?_, ?_, hlen, ?_⟩
  · have hmap : List.map (fun s => normalizeUrl s.url) (dedupe_sources sources limit)
        = (List.map (fun s => normalizeUrl s.url) (firstOccs sources)).take (max limit 1) := by
      rw [heq, List.map_take]
    rw [hmap]
    exact ((firstOccsAux_keys sources []).2).sublist (List.take_sublist _ _)
  · intro s hs
    rw [heq] at hs
    have hmem : s ∈ firstOccs sources := List.take_subset _ _ hs
    exact ((firstOccsAux_keys sources []).1 s hmem).1
  · intro h1
    have : max limit 1 = limit := by omega
    exact le_trans hlen (le_of_eq this)

/-- Claim C3 counterexample: with requested limit `0` and one source with a
nonempty URL, the deduplicated output has length `1 > 0`, so the output length
can exceed the requested limit. -/
theorem dedupe_sources_limit_zero_cex :
    ¬ ((dedupe_sources [⟨"t", "http://a"⟩] 0).length ≤ 0) := by decide

/-- Witness for `dedupe_sources_spec`: at limit `2` on three concrete sources
(two sharing a normalized URL), the hypothesis `1 ≤ 2` holds and the bound
follows by applying the theorem. -/
theorem dedupe_sources_spec_witness :
    1 ≤ 2 ∧ (dedupe_sources
      [⟨"a", "http://X "⟩, ⟨"b", " http://x"⟩, ⟨"c", "http://y"⟩] 2).length ≤ 2 :=
  ⟨by decide, (dedupe_sources_spec
      [⟨"a", "http://X "⟩, ⟨"b", " http://x"⟩, ⟨"c", "http://y"⟩] 2).2.2.2.2.2 (by decide)⟩

/-- Failure modes of `generate_email_reply` (`src/api/llm.py`):
`LLMConfigurationError` (missing `OPENAI_API_KEY`) versus every other
exception raised by the generation backend. -/
inductive LLMFailure where
  | configuration
  | backend
deriving DecidableEq, Repr

/-- Process environment and external collaborators: the relevant `Settings`
fields from `src/api/config.py` (credentials modelled by their truthiness)
plus the opaque external services. `primarySearch` models the Tavily call of
`_search_with_tavily` (result already parsed into `SourceItem`s),
`secondarySearch` the DuckDuckGo call of `_search_with_duckduckgo`, and
`llmContent` the chat-completion call of `generate_email_reply` (arguments:
body, subject, sender_email, sources, intent label; result: the raw message
content, `""` standing for a `None` content, or a backend exception). -/
structure Env where
  tavily_api_key : Bool
  search_max_results : Nat
  max_reply_items : Nat
  openai_api_key : Bool
  openai_model : String
  primarySearch : String → Except Unit (List SourceItem)
  secondarySearch : String → Except Unit (List SourceItem)
  llmContent : String → Option String → Option String → List SourceItem → String → Except Unit String

/-- `_search_with_tavily` (`src/api/search.py` lines 26-44): the provider call
with its fixed backend identifier. -/
def search_with_tavily (env : Env) (query : String) : Except Unit (List SourceItem × String) :=
  (env.primarySearch query).map (fun s => (s, "tavily"))

/-- `_search_with_duckduckgo` (`src/api/search.py` lines 47-58). -/
def search_with_duckduckgo (env : Env) (query : String) : Except Unit (List SourceItem × String) :=
  (env.secondarySearch query).map (fun s => (s, "duckduckgo"))

/-- The wrapped hard-failure message of `search_recent_surat_events`. -/
def searchUnavailableMsg : String :=
  "Web search is currently unavailable. Please try again later, or configure TAVILY_API_KEY."

/-- The recency/location augmentation applied to every query. -/
def augmentedQuery (query : String) : String :=
  pyStrip query ++ " Surat events recent 2025 2024"

/-- `search_recent_surat_events` (`src/api/search.py` lines 62-87): try the
credentialed provider first when configured; on exception or an empty
post-dedup result fall back to the keyless provider; a secondary failure is
wrapped into the user-facing "search unavailable" error. -/
def search_recent_surat_events (env : Env) (query : String) (max_results : Option Nat) :
    Except String (List SourceItem × String) :=
  let limit := max_results.getD env.search_max_results
  let aq := augmentedQuery query
  let fallback : Except String (List SourceItem × String) :=
    match search_with_duckduckgo env aq with
    | .ok (srcs, backend) => .ok (dedupe_sources srcs limit, backend)
    | .error _ => .error searchUnavailableMsg
  if env.tavily_api_key then
    match search_with_tavily env aq with
    | .ok (srcs, backend) =>
      let deduped := dedupe_sources srcs limit
      if deduped.isEmpty then fallback else .ok (deduped, backend)
    | .error _ => fallback
  else fallback

/-- Claim C2: if the primary (credentialed) provider raises or yields zero
post-dedup sources, Source Lookup returns the secondary provider's
deduplicated results, and the backend identifier is the secondary's
(`"duckduckgo"`), i.e. the identifier of the provider that actually produced
the returned sources. -/
theorem search_fallback_uses_secondary (env : Env) (query : String) (mr : Option Nat)
    (hkey : env.tavily_api_key = true)
    (hprim : env.primarySearch (augmentedQuery query) = .error ()
      ∨ ∃ s1, env.primarySearch (augmentedQuery query) = .ok s1
          ∧ dedupe_sources s1 (mr.getD env.search_max_results) = [])
    (s2 : List SourceItem)
    (hsec : env.secondarySearch (augmentedQuery query) = .ok s2) :
    search_recent_surat_events env query mr
      = .ok (dedupe_sources s2 (mr.getD env.search_max_results), "duckduckgo") := by
  unfold search_recent_surat_events
  rw [hkey]
  rcases hprim with h | ⟨s1, h1, h2⟩
  · simp [search_with_tavily, search_with_duckduckgo, h, hsec, Except.map]
  · simp [search_with_tavily, search_with_duckduckgo, h1, h2, hsec, Except.map]

/-- A fixed source used by concrete witnesses. -/
def sampleSource : SourceItem := ⟨"Event", "http://example.com/a"⟩

/-- A concrete environment whose primary search provider raises. -/
def envPrimaryFails : Env :=
  { tavily_api_key := true
    search_max_results := 6
    max_reply_items := 4
    openai_api_key := true
    openai_model := "gpt-4o-mini"
    primarySearch := fun _ => .error ()
    secondarySearch := fun _ => .ok [sampleSource]
    llmContent := fun _ _ _ _ _ => .ok "Hello" }

/-- Witness for `search_fallback_uses_secondary`: concrete run in which the
primary provider raises and the secondary's result is returned with backend
`"duckduckgo"`. -/
theorem search_fallback_uses_secondary_witness :
    envPrimaryFails.tavily_api_key = true ∧
    search_recent_surat_events envPrimaryFails "events" none
      = .ok (dedupe_sources [sampleSource]
          ((none : Option Nat).getD envPrimaryFails.search_max_results), "duckduckgo") :=
  ⟨rfl, search_fallback_uses_secondary envPrimaryFails "events" none rfl (Or.inl rfl)
    [sampleSource] rfl⟩

/-- `GraphState` (`src/api/graph.py` lines 17-26): a `total=False` typed dict,
so every field is optional; `none` models an absent key (for the
`Optional[str]` inputs it also models an explicit `None`, which the code never
distinguishes from an absent key since it only uses `state.get`). -/
structure GraphState where
  body : Option String := none
  subject : Option String := none
  sender_email : Option String := none
  intent : Option String := none
  sources : Option (List SourceItem) := none
  reply_text : Option String := none
  model : Option String := none
  search_backend : Option String := none
deriving DecidableEq, Repr

/-- One field of a LangGraph merge: a key present in the node's returned dict
overwrites, an absent key leaves the running value. -/
def updField {α : Type} (patch old : Option α) : Option α :=
  match patch with
  | some v => some v
  | none => old

/-- LangGraph's merge of a node's partial output into the running state. -/
def applyPatch (st patch : GraphState) : GraphState :=
  { body := updField patch.body st.body
    subject := updField patch.subject st.subject
    sender_email := updField patch.sender_email st.sender_email
    intent := updField patch.intent st.intent
    sources := updField patch.sources st.sources
    reply_text := updField patch.reply_text st.reply_text
    model := updField patch.model st.model
    search_backend := updField patch.search_backend st.search_backend }

/-- The initial state built by `create_reply` in `src/api/main.py`. -/
def initState (body : String) (subject sender_email : Option String) : GraphState :=
  { body := some body, subject := subject, sender_email := sender_email }

/-- The `unsafe_markers` list of `_contains_unsafe_request`
(`src/api/graph.py` lines 49-56). -/
def blockedMarkers : List String :=
  ["how to make a bomb", "buy drugs", "child sexual", "explicit sexual", "kill", "terrorist"]

/-- `_contains_unsafe_request` (`src/api/graph.py` lines 43-57): case-folded
substring match against the fixed marker list. -/
def containsBlockedRequest (text : String) : Bool :=
  blockedMarkers.any (fun m => strContains (pyLower text) m)

/-- `_basic_intent_classifier` (`src/api/graph.py` lines 29-40). -/
def basic_intent_classifier (text : String) : String :=
  let t := pyLower text
  if ["festival", "garba", "navratri", "cultural", "music", "concert", "art",
      "exhibition"].any (fun k => strContains t k) then "cultural_events"
  else if ["tech", "startup", "hackathon", "conference", "meetup",
      "workshop"].any (fun k => strContains t k) then "tech_events"
  else if ["sports", "marathon", "cricket", "football",
      "tournament"].any (fun k => strContains t k) then "sports_events"
  else if ["business", "expo", "trade fair", "summit",
      "industry"].any (fun k => strContains t k) then "business_events"
  else "general_events"

/-- The classifier's keyword table in its fixed priority order, as written in
the specification. -/
def category_keywords : List (String × List String) :=
  [("cultural_events",
      ["festival", "garba", "navratri", "cultural", "music", "concert", "art", "exhibition"]),
   ("tech_events", ["tech", "startup", "hackathon", "conference", "meetup", "workshop"]),
   ("sports_events", ["sports", "marathon", "cricket", "football", "tournament"]),
   ("business_events", ["business", "expo", "trade fair", "summit", "industry"])]

/-- First-match-wins scan over a keyword table, defaulting to
`general_events`: the specification's description of the classifier. -/
def firstMatchAux (t : String) : List (String × List String) → String
  | [] => "general_events"
  | (label, kws) :: rest =>
    if kws.any (fun k => strContains t k) then label else firstMatchAux t rest

/-- Modelled from the spec: classify by scanning the case-folded body against
the keyword sets in priority order, first match wins, `general_events` when
none match. -/
def firstMatchIntent (body : String) : String :=
  firstMatchAux (pyLower body) category_keywords

/-- The canned refusal reply from `node_classify_intent`. -/
def refusalReply : String :=
  "Hi,\n\nSorry, I can’t help with that request. If you’re looking for information about public events in Surat, tell me what kind of events you’re interested in (culture, tech, business, sports) and your preferred dates.\n\nRegards,\nSurat Event Info Assistant"

/-- The fixed "insufficient information" apology from `node_synthesize`. -/
def insufficientReply : String :=
  "Hi,\n\nI couldn’t find enough reliable recent information about events in Surat right now. If you share the type of event (culture/tech/business/sports) and a date range (e.g., this weekend), I can try again.\n\nRegards,\nSurat Event Info Assistant"

/-- `node_classify_intent` (`src/api/graph.py` lines 64-79): safety gate
first, then the keyword classifier; the returned value is a partial patch. -/
def node_classify_intent (state : GraphState) : GraphState :=
  let body := state.body.getD ""
  if containsBlockedRequest body then
    { intent := some "unsafe_request"
      reply_text := some refusalReply
      sources := some []
      model := some "none"
      search_backend := some "none" }
  else
    { intent := some (basic_intent_classifier body) }

/-- Python `s[:n]` (slicing by code points). -/
def strTake (s : String) (n : Nat) : String := String.mk (s.data.take n)

/-- The intent-specific query table of `node_search` with its
`"recent events in Surat"` default. -/
def queryForIntent (intent : String) : String :=
  if intent = "cultural_events" then "cultural events in Surat"
  else if intent = "tech_events" then "tech meetups workshops in Surat"
  else if intent = "sports_events" then "sports events tournaments in Surat"
  else if intent = "business_events" then "expos trade fairs business events in Surat"
  else if intent = "general_events" then "recent events in Surat"
  else if intent = "unsafe_request" then "recent events in Surat"
  else "recent events in Surat"

/-- `node_search` (`src/api/graph.py` lines 82-100). -/
def node_search (env : Env) (state : GraphState) : Except String GraphState :=
  let intent := state.intent.getD "general_events"
  let body := state.body.getD ""
  let query := queryForIntent intent ++ ". User request: " ++ strTake body 280
  match search_recent_surat_events env query none with
  | .ok (sources, backend) => .ok { sources := some sources, search_backend := some backend }
  | .error e => .error e

/-- Scan of `re.sub(r"\n{3,}", "\n\n", s)`: `run` is the number of consecutive
newlines immediately before the cursor; a newline beyond the second of a run
is dropped, which replaces every maximal run of three or more newlines by
exactly two (`runCollapse` below states this shape explicitly and
`collapseNl_eq_runCollapse` proves the two agree). -/
def collapseNlAux : Nat → List Char → List Char
  | _, [] => []
  | run, c :: rest =>
    if c = '\n' then
      if 2 ≤ run then collapseNlAux (run + 1) rest
      else '\n' :: collapseNlAux (run + 1) rest
    else c :: collapseNlAux 0 rest

/-- `re.sub(r"\n{3,}", "\n\n", ·)` on a character list. -/
def collapseNl (l : List Char) : List Char := collapseNlAux 0 l

/-- `_strip_excess_whitespace` (`src/api/graph.py` lines 60-61):
`re.sub(r"\n{3,}", "\n\n", s).strip()`. -/
def strip_excess_whitespace (s : String) : String :=
  pyStrip (String.mk (collapseNl s.data))

/-- `generate_email_reply` (`src/api/llm.py` lines 24-91): configuration error
when the credential is missing; otherwise the backend call, whose content is
stripped, an empty result being an error; on success the text is paired with
the configured model identifier. -/
def generate_email_reply (env : Env) (body : String) (subject sender_email : Option String)
    (sources : List SourceItem) (intent_label : String) : Except LLMFailure (String × String) :=
  if env.openai_api_key = false then .error .configuration
  else
    match env.llmContent body subject sender_email sources intent_label with
    | .error _ => .error .backend
    | .ok content =>
      if pyStrip content = "" then .error .backend
      else .ok (pyStrip content, env.openai_model)

/-- One line `- {title}: {url}` of the degraded source listing. -/
def sourceLine (s : SourceItem) : String := "- " ++ s.title ++ ": " ++ s.url

/-- Python `"\n".join`. -/
def joinNl : List String → String
  | [] => ""
  | [x] => x
  | x :: y :: rest => x ++ "\n" ++ joinNl (y :: rest)

/-- Opening text of the degraded (generator unconfigured) reply. -/
def degradedReplyHead : String :=
  "Hi,\n\nI found some sources, but the reply generator is not configured on this server yet. An administrator needs to set OPENAI_API_KEY.\n\nSources I found:\n"

/-- Closing text of the degraded reply. -/
def degradedReplyTail : String := "\n\nRegards,\nSurat Event Info Assistant"

/-- The degraded reply of `node_synthesize` when the generator is not
configured: a listing of the first four found sources (`sources[:4]`). -/
def degradedReply (sources : List SourceItem) : String :=
  degradedReplyHead ++ joinNl ((sources.take 4).map sourceLine) ++ degradedReplyTail

/-- The truncation `sources[: max(settings.max_reply_items, 4)]` applied
before calling the generator (`src/api/graph.py` line 127). -/
def sources_for_llm (max_reply_items : Nat) (sources : List SourceItem) : List SourceItem :=
  sources.take (max max_reply_items 4)

/-- Tail of `node_synthesize` (`src/api/graph.py` lines 129-152): the
generator call on the truncated source list, its configuration-error
degradation, and the re-raise of any other failure. -/
def synthGenerate (env : Env) (state : GraphState) (trimmed : List SourceItem) :
    Except String GraphState :=
  match generate_email_reply env (state.body.getD "") state.subject state.sender_email
      trimmed (state.intent.getD "general_events") with
  | .ok p => .ok { reply_text := some (strip_excess_whitespace p.1), model := some p.2 }
  | .error .configuration =>
    .ok { reply_text := some (degradedReply (state.sources.getD [])), model := some "none" }
  | .error .backend => .error "Synthesis failed."

/-- `node_synthesize` (`src/api/graph.py` lines 103-152). -/
def node_synthesize (env : Env) (state : GraphState) : Except String GraphState :=
  if state.intent = some "unsafe_request" ∧ state.reply_text.getD "" ≠ "" then
    .ok { reply_text := state.reply_text, model := some (state.model.getD "none") }
  else
    let sources := state.sources.getD []
    if sources.length < 1 then
      .ok { reply_text := some insufficientReply, model := some "none" }
    else
      synthGenerate env state (sources_for_llm env.max_reply_items sources)

/-- `route_after_classify` (`src/api/graph.py` lines 166-169). -/
def route_after_classify (state : GraphState) : String :=
  if state.intent = some "unsafe_request" then "synthesize" else "search"

/-- One invocation of the compiled graph of `build_reply_graph`
(`src/api/graph.py` lines 156-178): classify, conditionally search, then
synthesize, merging each node's patch; the boolean records whether the search
node was invoked. -/
def runPipeline (env : Env) (initial : GraphState) : Except String (GraphState × Bool) :=
  let st1 := applyPatch initial (node_classify_intent initial)
  if route_after_classify st1 = "synthesize" then
    match node_synthesize env st1 with
    | .ok p => .ok (applyPatch st1 p, false)
    | .error e => .error e
  else
    match node_search env st1 with
    | .ok p =>
      let st2 := applyPatch st1 p
      match node_synthesize env st2 with
      | .ok p2 => .ok (applyPatch st2 p2, true)
      | .error e => .error e
    | .error e => .error e

/-- Claim C1: for every request body containing an unsafe marker
(case-insensitive substring), the run classifies the intent as
`unsafe_request` with the canned refusal reply, the sources list is the empty
list and the search backend stays at the `"none"` sentinel in the final state,
and the search node is never invoked (the router sends the state directly to
synthesize, witnessed by the `false` flag). -/
theorem blocked_request_run_refuses (env : Env) (body : String)
    (subject sender_email : Option String)
    (h : containsBlockedRequest body = true) :
    ∃ final, runPipeline env (initState body subject sender_email) = .ok (final, false)
      ∧ final.intent = some "unsafe_request"
      ∧ final.reply_text = some refusalReply
      ∧ final.sources = some []
      ∧ final.search_backend = some "none"
      ∧ final.model = some "none" := by
  have hcl : node_classify_intent (initState body subject sender_email)
      = { intent := some "unsafe_request", reply_text := some refusalReply,
          sources := some [], model := some "none", search_backend := some "none" } := by
    simp [node_classify_intent, initState, h]
  have hne : refusalReply ≠ "" := by decide
  refine ⟨{ body := some body, subject := subject, sender_email := sender_email,
            intent := some "unsafe_request", sources := some [],
            reply_text := some refusalReply, model := some "none",
            search_backend := some "none" }, ?_, rfl, rfl, rfl, rfl, rfl⟩
  unfold runPipeline
  rw [hcl]
  simp [applyPatch, updField, initState, route_after_classify, node_synthesize, hne]

/-- Witness for `blocked_request_run_refuses`: the concrete body
`"how to make a bomb"` matches a marker and yields the refusing run. -/
theorem blocked_request_run_refuses_witness :
    containsBlockedRequest "how to make a bomb" = true
    ∧ ∃ final, runPipeline envPrimaryFails (initState "how to make a bomb" none none)
        = .ok (final, false)
      ∧ final.intent = some "unsafe_request"
      ∧ final.reply_text = some refusalReply
      ∧ final.sources = some []
      ∧ final.search_backend = some "none"
      ∧ final.model = some "none" :=
  ⟨by decide, blocked_request_run_refuses envPrimaryFails "how to make a bomb" none none (by decide)⟩

theorem firstMatchAux_no_match (t : String) :
    ∀ L : List (String × List String),
      (∀ p ∈ L, ∀ k ∈ p.2, strContains t k = false) → firstMatchAux t L = "general_events" := by
  intro L
  induction L with
  | nil => intro _; rfl
  | cons p rest ih =>
    intro hall
    obtain ⟨label, kws⟩ := p
    simp only [firstMatchAux]
    rw [if_neg]
    · exact ih (fun q hq k hk => hall q (List.mem_cons_of_mem _ hq) k hk)
    · intro hany
      rcases List.any_eq_true.mp hany with ⟨k, hk, hf⟩
      have := hall (label, kws) (List.mem_cons_self _ _) k hk
      simp [this] at hf

/-- Claim C4: for every state whose body contains no unsafe marker, the
classify node's patch assigns exactly the one intent computed by scanning the
case-folded body against the fixed keyword sets with first-match-wins priority
in the order cultural, tech, sports, business (`firstMatchIntent`), the result
is one of the five labels, and it is `general_events` when no keyword
matches. -/
theorem classify_safe_first_match (st : GraphState)
    (h : containsBlockedRequest (st.body.getD "") = false) :
    node_classify_intent st = { intent := some (basic_intent_classifier (st.body.getD "")) }
    ∧ basic_intent_classifier (st.body.getD "") = firstMatchIntent (st.body.getD "")
    ∧ basic_intent_classifier (st.body.getD "")
        ∈ ["cultural_events", "tech_events", "sports_events", "business_events", "general_events"]
    ∧ ((∀ p ∈ category_keywords, ∀ k ∈ p.2, strContains (pyLower (st.body.getD "")) k = false)
        → basic_intent_classifier (st.body.getD "") = "general_events") := by
  refine ⟨by simp [node_classify_intent, h], rfl, ?_, ?_⟩
  · unfold basic_intent_classifier
    dsimp only
    split
    · simp
    · split
      · simp
      · split
        · simp
        · split
          · simp
          · simp
  · intro hall
    show firstMatchAux (pyLower (st.body.getD "")) category_keywords = "general_events"
    exact firstMatchAux_no_match _ category_keywords hall

/-- Witness for `classify_safe_first_match`: a concrete safe body classified
as `tech_events`. -/
theorem classify_safe_first_match_witness :
    containsBlockedRequest ((initState "Any tech meetups in Surat this week?" none none).body.getD "") = false
    ∧ node_classify_intent (initState "Any tech meetups in Surat this week?" none none)
      = { intent := some (basic_intent_classifier
            ((initState "Any tech meetups in Surat this week?" none none).body.getD "")) } :=
  ⟨by decide, (classify_safe_first_match _ (by decide)).1⟩

/-- Claim C6: with no preset refusal and fewer than one source, the synthesize
node returns the fixed "insufficient information" apology with the `"none"`
generator sentinel; the result does not depend on the generator (the
right-hand side mentions no field of `env`), so the generator is not
invoked. -/
theorem synth_insufficient_sources_apology (env : Env) (st : GraphState)
    (hno : ¬ (st.intent = some "unsafe_request" ∧ st.reply_text.getD "" ≠ ""))
    (hsrc : st.sources.getD [] = []) :
    node_synthesize env st = .ok { reply_text := some insufficientReply, model := some "none" } := by
  unfold node_synthesize
  rw [if_neg hno]
  simp [hsrc]

/-- Witness for `synth_insufficient_sources_apology`: a fresh state with no
sources yields the apology. -/
theorem synth_insufficient_sources_apology_witness :
    (¬ ((initState "hello" none none).intent = some "unsafe_request"
        ∧ (initState "hello" none none).reply_text.getD "" ≠ ""))
    ∧ node_synthesize envPrimaryFails (initState "hello" none none)
      = .ok { reply_text := some insufficientReply, model := some "none" } :=
  ⟨by decide, synth_insufficient_sources_apology envPrimaryFails _ (by decide) rfl⟩

/-- Claim C7: with no preset refusal and a nonempty source list, the
synthesize node hands the generator exactly the first
`max max_reply_items 4` sources: the truncation bound is never below `4`
even when the setting is configured lower, and the truncated list is the
prefix of the sources of that length. -/
theorem synth_truncates_sources_for_generator (env : Env) (st : GraphState)
    (hno : ¬ (st.intent = some "unsafe_request" ∧ st.reply_text.getD "" ≠ ""))
    (hsrc : st.sources.getD [] ≠ []) :
    node_synthesize env st
      = synthGenerate env st ((st.sources.getD []).take (max env.max_reply_items 4))
    ∧ 4 ≤ max env.max_reply_items 4
    ∧ sources_for_llm env.max_reply_items (st.sources.getD [])
        = (st.sources.getD []).take (max env.max_reply_items 4)
    ∧ ((st.sources.getD []).take (max env.max_reply_items 4)).length
        = min (max env.max_reply_items 4) (st.sources.getD []).length
    ∧ List.Sublist ((st.sources.getD []).take (max env.max_reply_items 4)) (st.sources.getD []) := by
  have hpos : 0 < (st.sources.getD []).length := List.length_pos.mpr hsrc
  refine ⟨?_, by omega, rfl, List.length_take _ _, List.take_sublist _ _⟩
  unfold node_synthesize
  rw [if_neg hno]
  dsimp only
  rw [if_neg (by omega)]
  rfl

/-- A state carrying one found source, used by concrete witnesses. -/
def stOneSource : GraphState := { body := some "events", sources := some [sampleSource] }

/-- Witness for `synth_truncates_sources_for_generator` at a concrete state
with one source and the default settings. -/
theorem synth_truncates_sources_for_generator_witness :
    (¬ (stOneSource.intent = some "unsafe_request" ∧ stOneSource.reply_text.getD "" ≠ ""))
    ∧ stOneSource.sources.getD [] ≠ []
    ∧ node_synthesize envPrimaryFails stOneSource
      = synthGenerate envPrimaryFails stOneSource
          ((stOneSource.sources.getD []).take (max envPrimaryFails.max_reply_items 4)) :=
  ⟨by decide, by decide,
    (synth_truncates_sources_for_generator envPrimaryFails stOneSource (by decide) (by decide)).1⟩

theorem strData_append (a b : String) : (a ++ b).data = a.data ++ b.data := rfl

theorem containsSub_of_infix (hay needle : List Char) (h : List.IsInfix needle hay) :
    containsSub hay needle = true := by
  induction hay with
  | nil =>
    rw [List.infix_nil] at h
    subst h
    rfl
  | cons a t ih =>
    unfold containsSub
    split
    · rfl
    · rename_i hnp
      rcases List.infix_cons_iff.mp h with hpre | hinf
      · exact absurd (( List.isPrefixOf_iff_prefix).mpr hpre) hnp
      · exact ih hinf

theorem strContains_of_infix (hay needle : String) (h : List.IsInfix needle.data hay.data) :
    strContains hay needle = true :=
  containsSub_of_infix _ _ h

theorem url_infix_sourceLine (s : SourceItem) :
    List.IsInfix s.url.data (sourceLine s).data := by
  show List.IsInfix s.url.data ((("- " ++ s.title) ++ ": ") ++ s.url).data
  rw [strData_append]
  exact (List.suffix_append _ _).isInfix

theorem joinNl_has_mem (x : String) (l : List String) (hx : x ∈ l) :
    List.IsInfix x.data (joinNl l).data := by
  induction l with
  | nil => cases hx
  | cons y rest ih =>
    cases rest with
    | nil =>
      have : x = y := by simpa using hx
      subst this
      exact List.infix_refl _
    | cons z rest2 =>
      have hdata : (joinNl (y :: z :: rest2)).data
          = (y.data ++ "\n".data) ++ (joinNl (z :: rest2)).data := by
        show ((y ++ "\n") ++ joinNl (z :: rest2)).data = _
        rw [strData_append, strData_append]
      rcases List.mem_cons.mp hx with h | h
      · subst h
        rw [hdata, List.append_assoc]
        exact ( List.prefix_append _ _).isInfix
      · rw [hdata]
        exact (ih h).trans (List.suffix_append _ _).isInfix

/-- Claim C5 (amended): with a nonempty source list, no preset refusal, and
the generation credential not configured, synthesis returns the degraded
reply with generator identifier `"none"` (the configuration error is not
surfaced as an error), and the reply text includes the URL of every source
among the first four found sources — not of every source: the code lists
`sources[:4]`, so from the fifth source on the URL may be absent. -/
theorem synth_degraded_lists_first_four (env : Env) (st : GraphState)
    (hno : ¬ (st.intent = some "unsafe_request" ∧ st.reply_text.getD "" ≠ ""))
    (hsrc : st.sources.getD [] ≠ [])
    (hkey : env.openai_api_key = false) :
    node_synthesize env st
      = .ok { reply_text := some (degradedReply (st.sources.getD [])), model := some "none" }
    ∧ ∀ s ∈ (st.sources.getD []).take 4,
        strContains (degradedReply (st.sources.getD [])) s.url = true := by
  constructor
  · have hpos : 0 < (st.sources.getD []).length := List.length_pos.mpr hsrc
    unfold node_synthesize
    rw [if_neg hno]
    dsimp only
    rw [if_neg (by omega)]
    unfold synthGenerate generate_email_reply
    simp [hkey]
  · intro s hs
    apply strContains_of_infix
    unfold degradedReply
    rw [strData_append, strData_append]
    refine List.IsInfix.trans ?_ (List.infix_append _ _ _)
    exact (url_infix_sourceLine s).trans
      (joinNl_has_mem _ _ (List.mem_map_of_mem sourceLine hs))

/-- Five sources with pairwise distinct URLs. -/
def fiveSources : List SourceItem :=
  [⟨"t1", "http://e1"⟩, ⟨"t2", "http://e2"⟩, ⟨"t3", "http://e3"⟩,
   ⟨"t4", "http://e4"⟩, ⟨"t5", "http://e5"⟩]

/-- A state in which the search node found five sources. -/
def stFive : GraphState := { body := some "events", sources := some fiveSources }

/-- An environment whose generation credential is not configured. -/
def envNoLLM : Env := { envPrimaryFails with openai_api_key := false }

/-- Claim C5 counterexample: with five found sources and the generator
unconfigured, the degraded reply does not contain the fifth source's URL,
so the reply text does not include every source's URL. -/
theorem synth_degraded_missing_fifth_url_cex :
    node_synthesize envNoLLM stFive
      = .ok { reply_text := some (degradedReply fiveSources), model := some "none" }
    ∧ (⟨"t5", "http://e5"⟩ : SourceItem) ∈ fiveSources
    ∧ strContains (degradedReply fiveSources) "http://e5" = false :=
  ⟨rfl, by decide, by decide⟩

/-- Witness for `synth_degraded_lists_first_four` at the concrete
one-source state: the degraded reply contains that source's URL. -/
theorem synth_degraded_lists_first_four_witness :
    envNoLLM.openai_api_key = false
    ∧ node_synthesize envNoLLM stOneSource
      = .ok { reply_text := some (degradedReply (stOneSource.sources.getD [])),
              model := some "none" }
    ∧ ∀ s ∈ (stOneSource.sources.getD []).take 4,
        strContains (degradedReply (stOneSource.sources.getD [])) s.url = true :=
  ⟨rfl,
    (synth_degraded_lists_first_four envNoLLM stOneSource (by decide) (by decide) rfl).1,
    (synth_degraded_lists_first_four envNoLLM stOneSource (by decide) (by decide) rfl).2⟩

/-- Split a leading maximal run of newlines: the run length and the remainder
(whose head, if any, is not a newline). -/
def splitNl : List Char → Nat × List Char
  | [] => (0, [])
  | c :: rest =>
    if c = '\n' then
      ((splitNl rest).1 + 1, (splitNl rest).2)
    else (0, c :: rest)

theorem splitNl_length_le (l : List Char) : (splitNl l).2.length ≤ l.length := by
  induction l with
  | nil => simp [splitNl]
  | cons c rest ih =>
    simp only [splitNl]
    split
    · simpa using Nat.le_succ_of_le ih
    · simp

/-- Direct form of `re.sub(r"\n{3,}", "\n\n", ·)`: the regex matches exactly
the maximal runs of three or more newlines (greedy matching), each replaced
by two newlines. -/
def runCollapse : List Char → List Char
  | [] => []
  | c :: rest =>
    if c = '\n' then
      List.replicate (if 3 ≤ (splitNl rest).1 + 1 then 2 else (splitNl rest).1 + 1) '\n'
        ++ runCollapse (splitNl rest).2
    else c :: runCollapse rest
termination_by l => l.length
decreasing_by
  all_goals simp_wf
  all_goals exact Nat.lt_succ_of_le (splitNl_length_le _)

theorem splitNl_spec (l : List Char) :
    l = List.replicate (splitNl l).1 '\n' ++ (splitNl l).2
    ∧ ∀ c t, (splitNl l).2 = c :: t → c ≠ '\n' := by
  induction l with
  | nil => simp [splitNl]
  | cons c rest ih =>
    simp only [splitNl]
    split
    · rename_i hc
      subst hc
      refine ⟨?_, ih.2⟩
      rw [List.replicate_succ, List.cons_append, ← ih.1]
    · rename_i hc
      refine ⟨by simp, ?_⟩
      intro c' t' h
      injection h with h1 _
      subst h1
      exact hc


theorem collapseNlAux_replicate_nil :
    ∀ k r, collapseNlAux r (List.replicate k '\n') = List.replicate (min k (2 - min r 2)) '\n' := by
  intro k
  induction k with
  | zero => intro r; simp [collapseNlAux]
  | succ k ih =>
    intro r
    rw [List.replicate_succ]
    simp only [collapseNlAux, eq_self_iff_true, if_true]
    by_cases hr : 2 ≤ r
    · rw [if_pos hr, ih (r + 1)]
      have h1 : min (k + 1) (2 - min r 2) = 0 := by omega
      have h2 : min k (2 - min (r + 1) 2) = 0 := by omega
      rw [h1, h2]
    · rw [if_neg hr, ih (r + 1)]
      have h3 : min (k + 1) (2 - min r 2) = min k (2 - min (r + 1) 2) + 1 := by omega
      rw [h3, List.replicate_succ]

theorem collapseNlAux_replicate_cons (c : Char) (t : List Char) (hc : c ≠ '\n') :
    ∀ k r, collapseNlAux r (List.replicate k '\n' ++ (c :: t))
      = List.replicate (min k (2 - min r 2)) '\n' ++ (c :: collapseNlAux 0 t) := by
  intro k
  induction k with
  | zero =>
    intro r
    simp only [List.replicate, List.nil_append, Nat.zero_min, List.replicate_zero]
    simp [collapseNlAux, hc]
  | succ k ih =>
    intro r
    rw [List.replicate_succ, List.cons_append]
    simp only [collapseNlAux, eq_self_iff_true, if_true]
    by_cases hr : 2 ≤ r
    · rw [if_pos hr, ih (r + 1)]
      have h1 : min (k + 1) (2 - min r 2) = 0 := by omega
      have h2 : min k (2 - min (r + 1) 2) = 0 := by omega
      rw [h1, h2]
    · rw [if_neg hr, ih (r + 1)]
      have h3 : min (k + 1) (2 - min r 2) = min k (2 - min (r + 1) 2) + 1 := by omega
      rw [h3, List.replicate_succ, List.cons_append]

theorem collapseNl_eq_runCollapse_bounded :
    ∀ n (l : List Char), l.length ≤ n → collapseNl l = runCollapse l := by
  intro n
  induction n with
  | zero =>
    intro l hl
    have : l = [] := List.length_eq_zero.mp (Nat.le_zero.mp hl)
    subst this
    rw [runCollapse]
    rfl
  | succ n ih =>
    intro l hl
    cases l with
    | nil => rw [runCollapse]; rfl
    | cons c rest =>
      by_cases hc : c = '\n'
      · subst hc
        have hs := splitNl_spec rest
        have hrest : ('\n' :: rest)
            = List.replicate ((splitNl rest).1 + 1) '\n' ++ (splitNl rest).2 := by
          rw [List.replicate_succ, List.cons_append, ← hs.1]
        have hmin : min ((splitNl rest).1 + 1) (2 - min 0 2)
            = if 3 ≤ (splitNl rest).1 + 1 then 2 else (splitNl rest).1 + 1 := by
          split <;> omega
        have hlen2 : (splitNl rest).2.length ≤ n := by
          have := splitNl_length_le rest
          simp only [List.length_cons] at hl
          omega
        rw [runCollapse.eq_2, if_pos rfl]
        cases hys : (splitNl rest).2 with
        | nil =>
          show collapseNlAux 0 ('\n' :: rest) = _
          conv_lhs => rw [hrest, hys]
          rw [List.append_nil, collapseNlAux_replicate_nil ((splitNl rest).1 + 1) 0, hmin]
          rw [show runCollapse [] = [] from by rw [runCollapse], List.append_nil]
        | cons d t =>
          have hd : d ≠ '\n' := hs.2 d t hys
          have ht : t.length ≤ n := by
            rw [hys] at hlen2
            simp only [List.length_cons] at hlen2
            omega
          show collapseNlAux 0 ('\n' :: rest) = _
          conv_lhs => rw [hrest, hys]
          rw [collapseNlAux_replicate_cons d t hd ((splitNl rest).1 + 1) 0, hmin]
          congr 1
          rw [runCollapse.eq_2, if_neg hd]
          exact congrArg (d :: ·) (ih t ht)
      · have hrest : rest.length ≤ n := by
          simp only [List.length_cons] at hl
          omega
        show collapseNlAux 0 (c :: rest) = runCollapse (c :: rest)
        rw [runCollapse.eq_2, if_neg hc]
        simp only [collapseNlAux, if_neg hc]
        exact congrArg (c :: ·) (ih rest hrest)

theorem collapseNl_eq_runCollapse (l : List Char) : collapseNl l = runCollapse l :=
  collapseNl_eq_runCollapse_bounded l.length l (Nat.le_refl _)

theorem collapseNlAux_getLast (l : List Char) :
    ∀ r c, l.getLast? = some c → isPySpace c = false →
      collapseNlAux r l ≠ [] ∧ (collapseNlAux r l).getLast? = some c := by
  induction l with
  | nil => intro r c h _; cases h
  | cons a rest ih =>
    intro r c hlast hc
    cases hrest : rest with
    | nil =>
      subst hrest
      have ha : a = c := by simpa using hlast
      subst ha
      have ha' : a ≠ '\n' := by
        intro h
        rw [h] at hc
        exact absurd hc (by decide)
      simp [collapseNlAux, ha']
    | cons b rest2 =>
      subst hrest
      have hlast2 : (b :: rest2).getLast? = some c := by
        rwa [List.getLast?_cons_cons] at hlast
      have hstep : collapseNlAux r (a :: b :: rest2)
          = if a = '\n' then
              (if 2 ≤ r then collapseNlAux (r + 1) (b :: rest2)
               else '\n' :: collapseNlAux (r + 1) (b :: rest2))
            else a :: collapseNlAux 0 (b :: rest2) := rfl
      by_cases ha : a = '\n'
      · rw [hstep, if_pos ha]
        by_cases hr : 2 ≤ r
        · rw [if_pos hr]
          exact ih (r + 1) c hlast2 hc
        · rw [if_neg hr]
          obtain ⟨hne, hgl⟩ := ih (r + 1) c hlast2 hc
          refine ⟨by simp, ?_⟩
          cases hX : collapseNlAux (r + 1) (b :: rest2) with
          | nil => exact absurd hX hne
          | cons d t =>
            rw [List.getLast?_cons_cons, ← hX]
            exact hgl
      · rw [hstep, if_neg ha]
        obtain ⟨hne, hgl⟩ := ih 0 c hlast2 hc
        refine ⟨by simp, ?_⟩
        cases hX : collapseNlAux 0 (b :: rest2) with
        | nil => exact absurd hX hne
        | cons d t =>
          rw [List.getLast?_cons_cons, ← hX]
          exact hgl

theorem stripList_eq_self (l : List Char)
    (hhead : ∀ c t, l = c :: t → isPySpace c = false)
    (hlast : ∀ c, l.getLast? = some c → isPySpace c = false) : stripList l = l := by
  cases l with
  | nil => rfl
  | cons a t =>
    have ha := hhead a t rfl
    unfold stripList
    rw [List.dropWhile_cons, if_neg (by simp [ha])]
    rw [List.rdropWhile_eq_self_iff.mpr]
    intro hl
    have hsome := List.getLast?_eq_getLast (a :: t) hl
    have := hlast _ hsome
    simp [this]

theorem stripList_head_not (l : List Char) (c : Char) (t : List Char)
    (h : stripList l = c :: t) : isPySpace c = false := by
  have hpre := List.rdropWhile_prefix isPySpace (l.dropWhile isPySpace)
  rw [show List.rdropWhile isPySpace (l.dropWhile isPySpace) = stripList l from rfl, h] at hpre
  rcases hpre with ⟨rest, hrest⟩
  have hne : l.dropWhile isPySpace ≠ [] := by
    rw [← hrest]
    simp
  have hhead := List.head_dropWhile_not isPySpace l hne
  have hh : (l.dropWhile isPySpace).head? = some c := by
    rw [← hrest]
    rfl
  have hh2 : (l.dropWhile isPySpace).head? = some ((l.dropWhile isPySpace).head hne) :=
    List.head?_eq_head hne
  have hceq : c = (l.dropWhile isPySpace).head hne := by
    have := hh.symm.trans hh2
    injection this
  rw [hceq]
  exact hhead

theorem stripList_getLast_not (l : List Char) (c : Char)
    (h : (stripList l).getLast? = some c) : isPySpace c = false := by
  have hne : stripList l ≠ [] := by
    intro hnil
    rw [hnil] at h
    cases h
  have hlnot := List.rdropWhile_last_not isPySpace (l.dropWhile isPySpace) hne
  have hsome := List.getLast?_eq_getLast (stripList l) hne
  rw [h] at hsome
  injection hsome with h1
  rw [h1]
  simpa using hlnot

theorem stripList_collapse_eq (l : List Char)
    (hhead : ∀ c t, l = c :: t → isPySpace c = false)
    (hlast : ∀ c, l.getLast? = some c → isPySpace c = false) :
    stripList (collapseNl l) = collapseNl l ∧ (l ≠ [] → collapseNl l ≠ []) := by
  constructor
  · apply stripList_eq_self
    · intro c t h
      cases l with
      | nil => cases h
      | cons a t0 =>
        have ha := hhead a t0 rfl
        have ha' : a ≠ '\n' := by
          intro hn
          rw [hn] at ha
          exact absurd ha (by decide)
        have hcol : collapseNl (a :: t0) = a :: collapseNlAux 0 t0 := by
          show collapseNlAux 0 (a :: t0) = _
          rw [show collapseNlAux 0 (a :: t0)
              = if a = '\n' then '\n' :: collapseNlAux 1 t0
                else a :: collapseNlAux 0 t0 from rfl, if_neg ha']
        rw [hcol] at h
        injection h with h1 _
        rw [← h1]
        exact ha
    · intro c hc
      cases l with
      | nil => cases hc
      | cons a t0 =>
        have hlne : (a :: t0) ≠ [] := by simp
        have hsome := List.getLast?_eq_getLast (a :: t0) hlne
        have hd := hlast _ hsome
        have hgl := (collapseNlAux_getLast (a :: t0) 0 _ hsome hd).2
        rw [show collapseNl (a :: t0) = collapseNlAux 0 (a :: t0) from rfl] at hc
        rw [hgl] at hc
        injection hc with h1
        rw [← h1]
        exact hd
  · intro hl
    cases l with
    | nil => exact absurd rfl hl
    | cons a t0 =>
      have ha := hhead a t0 rfl
      have ha' : a ≠ '\n' := by
        intro hn
        rw [hn] at ha
        exact absurd ha (by decide)
      rw [show collapseNl (a :: t0)
          = if a = '\n' then '\n' :: collapseNlAux 1 t0
            else a :: collapseNlAux 0 t0 from rfl, if_neg ha']
      simp

theorem generate_ok_shape (env : Env) (body : String) (subject sender_email : Option String)
    (sources : List SourceItem) (intent_label : String) (text model : String)
    (h : generate_email_reply env body subject sender_email sources intent_label
      = .ok (text, model)) :
    env.openai_api_key = true ∧ model = env.openai_model ∧ text ≠ ""
      ∧ ∃ raw, text = pyStrip raw := by
  unfold generate_email_reply at h
  by_cases hk : env.openai_api_key = false
  · rw [if_pos hk] at h
    exact (Except.noConfusion h)
  · have hk' : env.openai_api_key = true := by
      cases h' : env.openai_api_key
      · exact absurd h' hk
      · rfl
    rw [if_neg hk] at h
    cases hm : env.llmContent body subject sender_email sources intent_label with
    | error e =>
      rw [hm] at h
      exact (Except.noConfusion h)
    | ok raw =>
      rw [hm] at h
      dsimp only at h
      by_cases hempty : pyStrip raw = ""
      · rw [if_pos hempty] at h
        exact (Except.noConfusion h)
      · rw [if_neg hempty] at h
        injection h with hpair
        have h1 : pyStrip raw = text := congrArg Prod.fst hpair
        have h2 : env.openai_model = model := congrArg Prod.snd hpair
        exact ⟨hk', h2.symm, h1 ▸ hempty, raw, h1.symm⟩

theorem degradedReply_ne_empty (s : List SourceItem) : degradedReply s ≠ "" := by
  intro h
  have hdata := congrArg String.data h
  rw [show (degradedReply s).data
      = (degradedReplyHead.data ++ (joinNl ((s.take 4).map sourceLine)).data)
        ++ degradedReplyTail.data from by
      unfold degradedReply
      rw [strData_append, strData_append]] at hdata
  rw [show ("" : String).data = [] from rfl] at hdata
  have h1 := List.append_eq_nil.mp hdata
  have h2 := List.append_eq_nil.mp h1.1
  exact absurd h2.1 (by decide)

/-- Claim C9 (amended): on a successful generator call the synthesize node
returns the generated text with its generator identifier after replacing
every maximal run of three or more newline characters — that is, every run of
two or more blank lines, not only of three or more — by exactly two newlines
(one blank line), with no other change: the final `strip()` is a no-op
because generator output is already stripped. -/
theorem synth_success_collapses_newlines (env : Env) (st : GraphState)
    (hno : ¬ (st.intent = some "unsafe_request" ∧ st.reply_text.getD "" ≠ ""))
    (hsrc : st.sources.getD [] ≠ []) (text model : String)
    (hgen : generate_email_reply env (st.body.getD "") st.subject st.sender_email
        (sources_for_llm env.max_reply_items (st.sources.getD []))
        (st.intent.getD "general_events") = .ok (text, model)) :
    node_synthesize env st
      = .ok { reply_text := some (strip_excess_whitespace text), model := some model }
    ∧ strip_excess_whitespace text = String.mk (runCollapse text.data)
    ∧ model = env.openai_model := by
  obtain ⟨hk, hmod, hne, raw, hraw⟩ :=
    generate_ok_shape env _ _ _ _ _ text model hgen
  refine ⟨?_, ?_, hmod⟩
  · have hpos : 0 < (st.sources.getD []).length := List.length_pos.mpr hsrc
    unfold node_synthesize
    rw [if_neg hno]
    dsimp only
    rw [if_neg (by omega)]
    unfold synthGenerate
    rw [hgen]
  · subst hraw
    obtain ⟨hstrip, _⟩ := stripList_collapse_eq (stripList raw.data)
      (fun c t hh => stripList_head_not _ c t hh)
      (fun c hh => stripList_getLast_not _ c hh)
    show String.mk (stripList (collapseNl (stripList raw.data)))
      = String.mk (runCollapse (stripList raw.data))
    rw [hstrip, collapseNl_eq_runCollapse]

/-- An environment whose generator returns a text with a run of exactly two
blank lines (three newline characters). -/
def envTwoBlank : Env :=
  { envPrimaryFails with llmContent := fun _ _ _ _ _ => .ok "a\n\n\nb" }

/-- Claim C9 counterexample: the generator returns `"a\n\n\nb"`, which
contains a run of exactly two blank lines — fewer than three — yet the reply
is changed to `"a\n\nb"`: the code collapses runs of two or more blank lines,
not only runs of three or more. -/
theorem synth_collapses_two_blank_lines_cex :
    node_synthesize envTwoBlank stOneSource
      = .ok { reply_text := some "a\n\nb", model := some "gpt-4o-mini" }
    ∧ ("a\n\nb" : String) ≠ "a\n\n\nb" := by
  constructor
  · rfl
  · decide

/-- Witness for `synth_success_collapses_newlines` on a concrete run whose
generator returns `"Hello"`. -/
theorem synth_success_collapses_newlines_witness :
    generate_email_reply envPrimaryFails (stOneSource.body.getD "") stOneSource.subject
        stOneSource.sender_email
        (sources_for_llm envPrimaryFails.max_reply_items (stOneSource.sources.getD []))
        (stOneSource.intent.getD "general_events") = .ok ("Hello", "gpt-4o-mini")
    ∧ node_synthesize envPrimaryFails stOneSource
        = .ok { reply_text := some (strip_excess_whitespace "Hello"), model := some "gpt-4o-mini" }
    ∧ strip_excess_whitespace "Hello" = String.mk (runCollapse "Hello".data) :=
  ⟨rfl,
    (synth_success_collapses_newlines envPrimaryFails stOneSource (by decide) (by decide)
      "Hello" "gpt-4o-mini" rfl).1,
    (synth_success_collapses_newlines envPrimaryFails stOneSource (by decide) (by decide)
      "Hello" "gpt-4o-mini" rfl).2.1⟩

/-- Claim C10: whenever the synthesize node returns without raising, the
reply text it returns is a nonempty string: the refusal passthrough requires
an already nonempty reply, the apology and the degraded listing are fixed
nonempty texts, and the generator never returns an empty string (stripping
preserves the nonempty stripped text). -/
theorem synth_reply_nonempty (env : Env) (st p : GraphState)
    (h : node_synthesize env st = .ok p) :
    ∃ r, p.reply_text = some r ∧ r ≠ "" := by
  unfold node_synthesize at h
  by_cases hno : st.intent = some "unsafe_request" ∧ st.reply_text.getD "" ≠ ""
  · rw [if_pos hno] at h
    injection h with h1
    cases hrt : st.reply_text with
    | none =>
      rw [hrt] at hno
      simp at hno
    | some r =>
      refine ⟨r, ?_, ?_⟩
      · rw [← h1]
        exact hrt
      · intro hr
        rw [hrt, hr] at hno
        exact hno.2 rfl
  · rw [if_neg hno] at h
    dsimp only at h
    by_cases hlen : (st.sources.getD []).length < 1
    · rw [if_pos hlen] at h
      injection h with h1
      exact ⟨insufficientReply, by rw [← h1], by decide⟩
    · rw [if_neg hlen] at h
      unfold synthGenerate at h
      cases hg : generate_email_reply env (st.body.getD "") st.subject st.sender_email
          (sources_for_llm env.max_reply_items (st.sources.getD []))
          (st.intent.getD "general_events") with
      | ok pr =>
        rw [hg] at h
        injection h with h1
        obtain ⟨hk, hmod, hne, raw, hraw⟩ :=
          generate_ok_shape env _ _ _ _ _ pr.1 pr.2 (by rw [hg])
        refine ⟨strip_excess_whitespace pr.1, by rw [← h1], ?_⟩
        rw [hraw]
        rw [hraw] at hne
        obtain ⟨hstrip, hcol⟩ := stripList_collapse_eq (stripList raw.data)
          (fun c t hh => stripList_head_not _ c t hh)
          (fun c hh => stripList_getLast_not _ c hh)
        have hl : stripList raw.data ≠ [] := by
          intro hd
          apply hne
          show String.mk (stripList raw.data) = ""
          rw [hd]
        intro hemp
        apply hcol hl
        have hd := congrArg String.data hemp
        rw [show (strip_excess_whitespace (pyStrip raw)).data
            = stripList (collapseNl (stripList raw.data)) from rfl] at hd
        rw [hstrip] at hd
        exact hd
      | error f =>
        rw [hg] at h
        cases f with
        | configuration =>
          injection h with h1
          exact ⟨degradedReply (st.sources.getD []), by rw [← h1], degradedReply_ne_empty _⟩
        | backend => exact (Except.noConfusion h)

/-- Witness for `synth_reply_nonempty` on a concrete successful run. -/
theorem synth_reply_nonempty_witness :
    ∃ r, ({ reply_text := some (strip_excess_whitespace "Hello"),
            model := some "gpt-4o-mini" } : GraphState).reply_text = some r ∧ r ≠ "" :=
  synth_reply_nonempty envPrimaryFails stOneSource _ rfl

/-- Claim C8 counterexample: on an unsafe body the classify node's patch does
write `sources` (the empty list) and `search_backend` (the `"none"`
sentinel), so the search node is not the only node that ever sets these
fields. -/
theorem classify_writes_sources_cex :
    (node_classify_intent (initState "kill" none none)).sources = some []
    ∧ (node_classify_intent (initState "kill" none none)).search_backend = some "none"
    ∧ ¬ ((node_classify_intent (initState "kill" none none)).sources = none) := by decide

/-- Claim C8 (amended): the synthesize node never writes `sources` or
`search_backend`; the classify node leaves them unset on safe bodies and
writes only the empty-list / `"none"` sentinels on unsafe bodies; the search
node writes only `sources` and `search_backend`; and the LangGraph merge
preserves every field a node's patch leaves unset while a set field
overwrites. -/
theorem state_patch_discipline :
    (∀ env st p, node_synthesize env st = .ok p → p.sources = none ∧ p.search_backend = none)
    ∧ (∀ st, containsBlockedRequest (st.body.getD "") = false →
        (node_classify_intent st).sources = none
          ∧ (node_classify_intent st).search_backend = none)
    ∧ (∀ st, containsBlockedRequest (st.body.getD "") = true →
        (node_classify_intent st).sources = some []
          ∧ (node_classify_intent st).search_backend = some "none")
    ∧ (∀ env st p, node_search env st = .ok p →
        p.body = none ∧ p.subject = none ∧ p.sender_email = none ∧ p.intent = none
          ∧ p.reply_text = none ∧ p.model = none)
    ∧ (∀ st p, (p.sources = none → (applyPatch st p).sources = st.sources)
        ∧ (p.search_backend = none → (applyPatch st p).search_backend = st.search_backend)
        ∧ (p.intent = none → (applyPatch st p).intent = st.intent)
        ∧ (p.reply_text = none → (applyPatch st p).reply_text = st.reply_text)
        ∧ (p.model = none → (applyPatch st p).model = st.model)
        ∧ (p.body = none → (applyPatch st p).body = st.body)
        ∧ (p.subject = none → (applyPatch st p).subject = st.subject)
        ∧ (p.sender_email = none → (applyPatch st p).sender_email = st.sender_email)
        ∧ (∀ v, p.sources = some v → (applyPatch st p).sources = some v)
        ∧ (∀ v, p.search_backend = some v → (applyPatch st p).search_backend = some v)) := by
  refine ⟨?_, ?_, ?_, ?_, ?_⟩
  · intro env st p h
    unfold node_synthesize at h
    by_cases hno : st.intent = some "unsafe_request" ∧ st.reply_text.getD "" ≠ ""
    · rw [if_pos hno] at h
      injection h with h1
      rw [← h1]
      exact ⟨rfl, rfl⟩
    · rw [if_neg hno] at h
      dsimp only at h
      by_cases hlen : (st.sources.getD []).length < 1
      · rw [if_pos hlen] at h
        injection h with h1
        rw [← h1]
        exact ⟨rfl, rfl⟩
      · rw [if_neg hlen] at h
        unfold synthGenerate at h
        cases hg : generate_email_reply env (st.body.getD "") st.subject st.sender_email
            (sources_for_llm env.max_reply_items (st.sources.getD []))
            (st.intent.getD "general_events") with
        | ok pr =>
          rw [hg] at h
          injection h with h1
          rw [← h1]
          exact ⟨rfl, rfl⟩
        | error f =>
          rw [hg] at h
          cases f with
          | configuration =>
            injection h with h1
            rw [← h1]
            exact ⟨rfl, rfl⟩
          | backend => exact (Except.noConfusion h)
  · intro st h
    simp [node_classify_intent, h]
  · intro st h
    simp [node_classify_intent, h]
  · intro env st p h
    unfold node_search at h
    dsimp only at h
    cases hres : search_recent_surat_events env
        (queryForIntent (st.intent.getD "general_events") ++ ". User request: "
          ++ strTake (st.body.getD "") 280) none with
    | ok pr =>
      obtain ⟨ss, bb⟩ := pr
      rw [hres] at h
      dsimp only at h
      injection h with h1
      rw [← h1]
      exact ⟨rfl, rfl, rfl, rfl, rfl, rfl⟩
    | error e =>
      rw [hres] at h
      exact (Except.noConfusion h)
  · intro st p
    refine ⟨?_, ?_, ?_, ?_, ?_, ?_, ?_, ?_, ?_, ?_⟩
    all_goals intro v
    all_goals first
      | (intro hv; simp [applyPatch, updField, hv])
      | simp [applyPatch, updField, v]

/-- Witness for `state_patch_discipline` at concrete inputs: a safe classify
patch leaves the search fields unset, a synthesize patch leaves them unset,
and the merge preserves a field the patch does not mention. -/
theorem state_patch_discipline_witness :
    ((node_classify_intent (initState "hello" none none)).sources = none
      ∧ (node_classify_intent (initState "hello" none none)).search_backend = none)
    ∧ (({ reply_text := some insufficientReply, model := some "none" } : GraphState).sources = none
      ∧ ({ reply_text := some insufficientReply, model := some "none" } : GraphState).search_backend = none)
    ∧ (applyPatch stOneSource { reply_text := some "x" }).sources = stOneSource.sources :=
  ⟨state_patch_discipline.2.1 (initState "hello" none none) (by decide),
   state_patch_discipline.1 envPrimaryFails (initState "hello" none none) _ rfl,
   (state_patch_discipline.2.2.2.2 stOneSource { reply_text := some "x" }).1 rfl⟩
